import Mathlib

/-!
Verification of the graphrag_demo extraction-and-merge pipeline and
community-aware answer orchestrator.

The definitions below are a shallow embedding of
`backend/app/services/information_extractor.py` and
`backend/app/services/graphrag_qa.py`.  Python strings are modelled as
`List Char` where character indexing matters and as `String` elsewhere;
Python floats are idealised as rationals (`ℚ`); Python dicts with string
keys are insertion-ordered association lists; exceptions are an explicit
error monad.  External collaborators (the generation model, the Neo4j
store, the community summarizer/detector) are oracles supplied as an
environment record, following the interface contracts in the spec.
-/

namespace GraghRag

/-- A JSON value, as produced by Python `json.loads`.  Numbers are
idealised as rationals (Python would produce int/float). -/
inductive JVal where
  | null
  | bool (b : Bool)
  | num (q : ℚ)
  | str (s : String)
  | arr (elems : List JVal)
  | obj (fields : List (String × JVal))

/-- A Python dict with string keys, as an insertion-ordered association
list.  Python dicts never hold duplicate keys; all reachable values here
are built through `pySet`, which preserves that. -/
abbrev PyDict := List (String × JVal)

/-- `d[k] = v` on a Python dict: overwrite in place (keeping the key's
original position) when the key exists, otherwise append. -/
def pySet (d : PyDict) (k : String) (v : JVal) : PyDict :=
  if d.any (fun p => p.1 = k) then
    d.map (fun p => if p.1 = k then (k, v) else p)
  else
    d ++ [(k, v)]

/-- Python `d.update(o)`: assign every key/value pair of `o` into `d`,
in `o`'s iteration order. -/
def pyUpdate (d o : PyDict) : PyDict :=
  o.foldl (fun acc kv => pySet acc kv.1 kv.2) d

/-- The key list of a Python dict. -/
def pyKeys (d : PyDict) : List String :=
  d.map (fun p => p.1)

/-- Python `d.get(k)` (returns `None` when the key is absent). -/
def pyGet (d : PyDict) (k : String) : Option JVal :=
  (d.find? (fun p => p.1 == k)).map (fun p => p.2)

/-- Python `d.get(k, default)`. -/
def pyGetD (d : PyDict) (k : String) (v : JVal) : JVal :=
  (pyGet d k).getD v

/-- Python `s.lower()` (ASCII case mapping; the Chinese text the code
handles is unaffected by case).  Defined over the character list so that
it reduces inside the kernel. -/
def strToLower (s : String) : String :=
  (s.toList.map Char.toLower).asString

/-- Generic association-list lookup used for the merge tables of
`_merge_entities` / `_merge_relations` (Python dicts keyed by tuples). -/
def assocFind {K V : Type} [DecidableEq K] (m : List (K × V)) (k : K) : Option V :=
  match m with
  | [] => none
  | p :: rest => if p.1 = k then some p.2 else assocFind rest k

/-- In-place value replacement in the merge table: the key keeps its
original insertion position, as a Python dict assignment does. -/
def assocReplace {K V : Type} [DecidableEq K] (m : List (K × V)) (k : K) (v : V) :
    List (K × V) :=
  m.map (fun p => if p.1 = k then (k, v) else p)

/-- `ExtractedEntity` from `information_extractor.py`. -/
structure ExtractedEntity where
  type : String
  name : String
  properties : PyDict
  confidence : ℚ := 1
  source_text : String := ""

/-- `ExtractedRelation` from `information_extractor.py`. -/
structure ExtractedRelation where
  type : String
  source : String
  target : String
  properties : PyDict
  confidence : ℚ := 1
  source_text : String := ""

/-- Deduplication identity key of an entity: `(entity.type, entity.name.lower())`. -/
def entityKey (e : ExtractedEntity) : String × String :=
  (e.type, strToLower e.name)

/-- One iteration of the `for entity in entities` loop of
`InformationExtractor._merge_entities`, acting on the merge table. -/
def mergeEntityStep (m : List ((String × String) × ExtractedEntity))
    (e : ExtractedEntity) : List ((String × String) × ExtractedEntity) :=
  let key := entityKey e
  match assocFind m key with
  | some existing =>
    if existing.confidence < e.confidence then
      assocReplace m key
        { existing with
          properties := pyUpdate existing.properties e.properties
          confidence := e.confidence }
    else
      assocReplace m key
        { e with properties := pyUpdate e.properties existing.properties }
  | none => m ++ [(key, e)]

/-- `InformationExtractor._merge_entities`: fold the raw entity list into
a table keyed by `(type, lowercase(name))`, then return
`list(merged.values())`. -/
def mergeEntities (entities : List ExtractedEntity) : List ExtractedEntity :=
  (entities.foldl mergeEntityStep []).map (fun p => p.2)

/-- Deduplication identity key of a relation. -/
def relationKey (r : ExtractedRelation) : String × String × String :=
  (r.type, strToLower r.source, strToLower r.target)

/-- One iteration of the loop of `InformationExtractor._merge_relations`. -/
def mergeRelationStep (m : List ((String × String × String) × ExtractedRelation))
    (r : ExtractedRelation) : List ((String × String × String) × ExtractedRelation) :=
  let key := relationKey r
  match assocFind m key with
  | some existing =>
    if existing.confidence < r.confidence then
      assocReplace m key
        { existing with
          properties := pyUpdate existing.properties r.properties
          confidence := r.confidence }
    else
      assocReplace m key
        { r with properties := pyUpdate r.properties existing.properties }
  | none => m ++ [(key, r)]

/-- `InformationExtractor._merge_relations`. -/
def mergeRelations (relations : List ExtractedRelation) : List ExtractedRelation :=
  (relations.foldl mergeRelationStep []).map (fun p => p.2)

/-! ### Text segmenter (`InformationExtractor._split_text`)

The cursor `start` is an `Int`: Python integers are unbounded and, as
claim C3 examines, the cursor arithmetic can in fact go negative, at
which point Python's negative-index slicing semantics kick in.  The
`while` loop is modelled with explicit fuel: `splitAux` returns `none`
exactly when the loop has not finished within `fuel` further iterations.
-/

/-- Normalise one Python slice bound: negative indices count from the
end, and the result is clamped into `[0, n]`. -/
def pyBound (n : Nat) (i : Int) : Nat :=
  if i < 0 then ((n : Int) + i).toNat else min i.toNat n

/-- Python slice `xs[a:b]` with arbitrary integer bounds. -/
def pySlice (xs : List Char) (a b : Int) : List Char :=
  (xs.take (pyBound xs.length b)).drop (pyBound xs.length a)

/-- Python `s.rfind(c)` for a single-character needle: the largest index
holding `c`, or `-1` when absent. -/
def pyRfind (xs : List Char) (c : Char) : Int :=
  (List.range xs.length).foldl
    (fun acc i => if xs.getD i ' ' = c then (i : Int) else acc) (-1)

/-- Python `max(l, default := d)`. -/
def pyMaxD (l : List Int) (d : Int) : Int :=
  match l with
  | [] => d
  | x :: xs => xs.foldl max x

/-- The sentence-boundary markers probed by `_split_text`. -/
def splitDelims : List Char := ['。', '\n', '！', '？', ';', '.']

/-- Outcome of one iteration of the `while` loop of `_split_text`:
`last a` means `end >= len(text)`, so `text[a:]` is emitted and the loop
breaks; `cont a b next` means the slice `text[a:b]` is emitted and the
cursor moves to `next`. -/
inductive SplitStep where
  | last (a : Int)
  | cont (a b next : Int)

/-- One iteration of the `while start < len(text)` loop of
`InformationExtractor._split_text` (assuming `start < len(text)`). -/
def splitStep (text : List Char) (cs ov : Nat) (start : Int) : SplitStep :=
  let n : Int := text.length
  let e := start + (cs : Int)
  if n ≤ e then
    .last start
  else
    let chunk_text := pySlice text start e
    let split_points := splitDelims.map (pyRfind chunk_text)
    let best_split :=
      pyMaxD (split_points.filter (fun p => ((cs / 2 : Nat) : Int) < p)) (-1)
    if 0 < best_split then
      .cont start (start + best_split + 1) (start + best_split + 1 - (ov : Int))
    else
      .cont start e (e - (ov : Int))

/-- The `while` loop of `_split_text`, with fuel bounding the number of
emit-and-continue iterations still allowed. -/
def splitAux (text : List Char) (cs ov : Nat) : Nat → Int → Option (List (List Char))
  | 0, start =>
    if start < (text.length : Int) then
      match splitStep text cs ov start with
      | .last a => some [pySlice text a (text.length : Int)]
      | .cont _ _ _ => none
    else
      some []
  | fuel + 1, start =>
    if start < (text.length : Int) then
      match splitStep text cs ov start with
      | .last a => some [pySlice text a (text.length : Int)]
      | .cont a b next =>
        (splitAux text cs ov fuel next).map (fun r => pySlice text a b :: r)
    else
      some []

/-- `InformationExtractor._split_text(text)` with chunk size `cs` and
overlap `ov`; `none` when the loop does not finish within `fuel`
emit-and-continue iterations. -/
def splitText (text : List Char) (cs ov fuel : Nat) : Option (List (List Char)) :=
  if text.length ≤ cs then some [text] else splitAux text cs ov fuel 0

/-- Companion to `splitAux` recording, for each emitted chunk, the slice
bounds `(a, b)` it was cut from instead of the characters themselves.
Identical branching; related to `splitAux` by `splitAux_eq_spans`. -/
def splitSpansAux (text : List Char) (cs ov : Nat) : Nat → Int → Option (List (Int × Int))
  | 0, start =>
    if start < (text.length : Int) then
      match splitStep text cs ov start with
      | .last a => some [(a, (text.length : Int))]
      | .cont _ _ _ => none
    else
      some []
  | fuel + 1, start =>
    if start < (text.length : Int) then
      match splitStep text cs ov start with
      | .last a => some [(a, (text.length : Int))]
      | .cont a b next =>
        (splitSpansAux text cs ov fuel next).map (fun r => (a, b) :: r)
    else
      some []

/-- Span-level view of `splitText`. -/
def splitSpans (text : List Char) (cs ov fuel : Nat) : Option (List (Int × Int)) :=
  if text.length ≤ cs then some [(0, (text.length : Int))]
  else splitSpansAux text cs ov fuel 0

/-- The `_split_text` loop never finishes on this input, however much
fuel it is given. -/
def splitDiverges (text : List Char) (cs ov : Nat) : Prop :=
  ∀ fuel, splitText text cs ov fuel = none

/-- A 16-character text whose only delimiter is the `.` at index 6.
With `chunk_size = 10` and `chunk_overlap = 9` (so `overlap < max_size`)
the `_split_text` cursor cycles 0 → -2 → -1 → 0 … forever. -/
def badSplitInput : List Char := "abcdef.hijklmnop".toList

/-- Segmentation coverage (spec §8.1): the run finishes within `fuel`
iterations and every character position of the input lies inside the
span of some emitted chunk. -/
def splitCovers (text : List Char) (cs ov fuel : Nat) : Prop :=
  ∃ spans, splitSpans text cs ov fuel = some spans ∧
    ∀ i : Nat, i < text.length →
      ∃ sp ∈ spans, sp.1 ≤ (i : Int) ∧ (i : Int) < sp.2

/-! ### JSON parsing (`json.loads`) and the model-response parser

`_parse_model_response` feeds the model output through `re.search` for a
fenced block and then `json.loads`.  The parser below implements the
strict JSON grammar Python uses (whitespace ` \t\n\r`, strings with the
standard escapes, numbers with optional fraction/exponent).  Two
idealisations, neither exercised by any claim: numbers become exact
rationals rather than int/float, and the non-standard literals
`NaN`/`Infinity` that Python additionally accepts are rejected. -/

/-- JSON structural whitespace (` \t\n\r`). -/
def isJsonWs (c : Char) : Bool :=
  c = ' ' || c = '\t' || c = '\n' || c = '\r'

/-- Skip structural whitespace. -/
def skipWs : List Char → List Char
  | [] => []
  | c :: rest => if isJsonWs c then skipWs rest else c :: rest

/-- Whitespace as Python's `str.strip` / regex `\s` sees it (ASCII part). -/
def isPyWs (c : Char) : Bool :=
  c = ' ' || c = '\t' || c = '\n' || c = '\r' || c = '\x0b' || c = '\x0c'

/-- Python `s.strip()` restricted to ASCII whitespace. -/
def pyStrip (s : List Char) : List Char :=
  ((s.dropWhile isPyWs).reverse.dropWhile isPyWs).reverse

/-- Does `pat` occur at the head of `s`? -/
def headIsCL : List Char → List Char → Bool
  | [], _ => true
  | _ :: _, [] => false
  | p :: ps, c :: cs => p = c && headIsCL ps cs

/-- Index of the first occurrence of `pat` in `s` (`re.search` /
`str.find` style). -/
def strFindAux (pat : List Char) : List Char → Nat → Option Nat
  | [], i => if pat = [] then some i else none
  | s@(_ :: rest), i => if headIsCL pat s then some i else strFindAux pat rest (i + 1)

/-- First occurrence of `pat` in `s`. -/
def strFind (s pat : List Char) : Option Nat :=
  strFindAux pat s 0

/-- The fenced-block search: the captured group of
`re.search(r'```json\s*(.*?)\s*```', response, re.DOTALL)`.  The lazy
group together with the greedy `\s*` on both sides means: take the text
between the first ` ```json ` and the next ` ``` ` after it, trimmed of
surrounding whitespace; no match if no closing fence follows. -/
def fencedJson (response : List Char) : Option (List Char) :=
  match strFind response "```json".toList with
  | none => none
  | some i =>
    let rest := response.drop (i + 7)
    match strFind rest "```".toList with
    | none => none
    | some j => some (pyStrip (rest.take j))

/-- Value of a hex digit. -/
def hexVal (c : Char) : Option Nat :=
  if '0' ≤ c ∧ c ≤ '9' then some (c.toNat - '0'.toNat)
  else if 'a' ≤ c ∧ c ≤ 'f' then some (c.toNat - 'a'.toNat + 10)
  else if 'A' ≤ c ∧ c ≤ 'F' then some (c.toNat - 'A'.toNat + 10)
  else none

/-- JSON string body (after the opening quote), with standard escapes.
`fuel` bounds the characters consumed. -/
def parseJStr : Nat → List Char → List Char → Option (String × List Char)
  | 0, _, _ => none
  | _ + 1, _, [] => none
  | fuel + 1, acc, c :: rest =>
    if c = '"' then some (acc.reverse.asString, rest)
    else if c = '\\' then
      match rest with
      | [] => none
      | e :: rest2 =>
        if e = '"' then parseJStr fuel ('"' :: acc) rest2
        else if e = '\\' then parseJStr fuel ('\\' :: acc) rest2
        else if e = '/' then parseJStr fuel ('/' :: acc) rest2
        else if e = 'b' then parseJStr fuel ('\x08' :: acc) rest2
        else if e = 'f' then parseJStr fuel ('\x0c' :: acc) rest2
        else if e = 'n' then parseJStr fuel ('\n' :: acc) rest2
        else if e = 'r' then parseJStr fuel ('\r' :: acc) rest2
        else if e = 't' then parseJStr fuel ('\t' :: acc) rest2
        else if e = 'u' then
          match rest2 with
          | h1 :: h2 :: h3 :: h4 :: rest3 =>
            match hexVal h1, hexVal h2, hexVal h3, hexVal h4 with
            | some a, some b, some c2, some d =>
              parseJStr fuel (Char.ofNat (((a * 16 + b) * 16 + c2) * 16 + d) :: acc) rest3
            | _, _, _, _ => none
          | _ => none
        else none
    else if c.toNat < 32 then none
    else parseJStr fuel (c :: acc) rest

/-- A maximal run of decimal digits. -/
def takeDigits : List Char → List Char × List Char
  | [] => ([], [])
  | c :: rest =>
    if c.isDigit then
      let (ds, r) := takeDigits rest
      (c :: ds, r)
    else ([], c :: rest)

/-- Numeric value of a digit run. -/
def digitsVal (ds : List Char) : Nat :=
  ds.foldl (fun acc c => acc * 10 + (c.toNat - '0'.toNat)) 0

/-- Optional exponent part of a JSON number; returns `(none, s)` when
`s` does not start with a well-formed exponent. -/
def parseJExp (s : List Char) : Option Int × List Char :=
  match s with
  | e :: rest =>
    if e = 'e' ∨ e = 'E' then
      let (esign, r1) : Int × List Char :=
        match rest with
        | '-' :: r => (-1, r)
        | '+' :: r => (1, r)
        | _ => (1, rest)
      match takeDigits r1 with
      | ([], _) => (none, s)
      | (eds, r2) => (some (esign * (digitsVal eds : Int)), r2)
    else (none, s)
  | [] => (none, s)

/-- JSON number (grammar `-? (0 | [1-9][0-9]*) frac? exp?`), returned as
an exact rational.  A fraction dot without digits, or an exponent marker
without digits, ends the number before it, as Python's number regex
does. -/
def parseJNum (s : List Char) : Option (ℚ × List Char) :=
  let (neg, s1) : Bool × List Char :=
    match s with
    | '-' :: rest => (true, rest)
    | _ => (false, s)
  let (ints, s2) := takeDigits s1
  if ints = [] then none
  else if 1 < ints.length ∧ ints.headD '0' = '0' then none
  else
    let (fracs, s3) : List Char × List Char :=
      match s2 with
      | '.' :: rest =>
        match takeDigits rest with
        | ([], _) => ([], s2)
        | (ds, r) => (ds, r)
      | _ => ([], s2)
    let (expv, s4) := parseJExp s3
    let mantissa : ℚ :=
      mkRat ((digitsVal ints : Int) * 10 ^ fracs.length + (digitsVal fracs : Int))
        (10 ^ fracs.length)
    let signed : ℚ := if neg then -mantissa else mantissa
    let scaled : ℚ :=
      match expv with
      | none => signed
      | some e =>
        if 0 ≤ e then signed * (10 : ℚ) ^ e.toNat
        else signed * mkRat 1 (10 ^ (-e).toNat)
    some (scaled, s4)

mutual

/-- One JSON value; `fuel` bounds the recursion. -/
def parseJVal : Nat → List Char → Option (JVal × List Char)
  | 0, _ => none
  | fuel + 1, s =>
    match skipWs s with
    | [] => none
    | c :: rest =>
      if c = '"' then
        (parseJStr (rest.length + 1) [] rest).map (fun p => (JVal.str p.1, p.2))
      else if c = '\x7b' then parseJObj fuel rest
      else if c = '[' then parseJArr fuel rest
      else if headIsCL "null".toList (c :: rest) then
        some (JVal.null, (c :: rest).drop 4)
      else if headIsCL "true".toList (c :: rest) then
        some (JVal.bool true, (c :: rest).drop 4)
      else if headIsCL "false".toList (c :: rest) then
        some (JVal.bool false, (c :: rest).drop 5)
      else if c = '-' ∨ c.isDigit then
        (parseJNum (c :: rest)).map (fun p => (JVal.num p.1, p.2))
      else none

/-- JSON array tail, after the opening bracket. -/
def parseJArr : Nat → List Char → Option (JVal × List Char)
  | 0, _ => none
  | fuel + 1, s =>
    match skipWs s with
    | ']' :: rest => some (JVal.arr [], rest)
    | s1 =>
      match parseJVal fuel s1 with
      | none => none
      | some (v, r) => parseJArrTail fuel [v] r

/-- Remaining array elements, after at least one element. -/
def parseJArrTail : Nat → List JVal → List Char → Option (JVal × List Char)
  | 0, _, _ => none
  | fuel + 1, acc, s =>
    match skipWs s with
    | ']' :: rest => some (JVal.arr acc.reverse, rest)
    | ',' :: rest =>
      match parseJVal fuel rest with
      | none => none
      | some (v, r) => parseJArrTail fuel (v :: acc) r
    | _ => none

/-- JSON object tail, after the opening brace.  Duplicate keys follow
Python `dict(pairs)`: the later value wins, the key keeps its first
position. -/
def parseJObj : Nat → List Char → Option (JVal × List Char)
  | 0, _ => none
  | fuel + 1, s =>
    match skipWs s with
    | '\x7d' :: rest => some (JVal.obj [], rest)
    | '"' :: rest =>
      match parseJStr (rest.length + 1) [] rest with
      | none => none
      | some (k, r1) =>
        match skipWs r1 with
        | ':' :: r2 =>
          match parseJVal fuel r2 with
          | none => none
          | some (v, r3) => parseJObjTail fuel (pySet [] k v) r3
        | _ => none
    | _ => none

/-- Remaining object members, after at least one. -/
def parseJObjTail : Nat → PyDict → List Char → Option (JVal × List Char)
  | 0, _, _ => none
  | fuel + 1, acc, s =>
    match skipWs s with
    | '\x7d' :: rest => some (JVal.obj acc, rest)
    | ',' :: rest =>
      match skipWs rest with
      | '"' :: r0 =>
        match parseJStr (r0.length + 1) [] r0 with
        | none => none
        | some (k, r1) =>
          match skipWs r1 with
          | ':' :: r2 =>
            match parseJVal fuel r2 with
            | none => none
            | some (v, r3) => parseJObjTail fuel (pySet acc k v) r3
          | _ => none
      | _ => none
    | _ => none

end

/-- Python `json.loads` on a character list: one JSON document followed
only by whitespace. -/
def jsonLoadsCL (s : List Char) : Option JVal :=
  match parseJVal (2 * s.length + 4) s with
  | none => none
  | some (v, rest) => if skipWs rest = [] then some v else none

/-- Python `json.loads`. -/
def jsonLoads (s : String) : Option JVal :=
  jsonLoadsCL s.toList

/-! ### Extraction pipeline (`extract_from_text` and friends)

The generation collaborator is an oracle `generate : Nat → ModelResponse`
indexed by call order — `_extract_from_chunk` issues exactly one
generation call per chunk, in chunk order.  The wall-clock fields
(`extraction_time`, `processing_time`) are omitted: they are not
statable in a pure embedding and no claim touches them. -/

/-- `ModelResponse` from `ollama_client.py` (the fields the extractor
reads). -/
structure ModelResponse where
  content : String
  success : Bool := true
  error_message : String := ""

/-- The active schema catalog is an external collaborator (spec §6);
only its prompt rendering flows into this core, so it is abstracted to
that rendering. -/
structure Schema where
  rendering : String

/-- The `metadata` dict of a finished `ExtractionResult` (minus the
wall-clock `processing_time`). -/
structure XMeta where
  chunks_count : Nat
  success_chunks : Nat
  entities_before_merge : Nat
  relations_before_merge : Nat
deriving DecidableEq

/-- `ExtractionResult` from `information_extractor.py` (minus
`extraction_time`). -/
structure ExtractionResult where
  entities : List ExtractedEntity
  relations : List ExtractedRelation
  source_text : String
  success : Bool := true
  error_message : String := ""
  metadata : Option XMeta := none

/-- Environment of the extractor: the schema catalog and the generation
collaborator. -/
structure XEnv where
  schema : Option Schema
  generate : Nat → ModelResponse

/-- Constructor configuration of `InformationExtractor`. -/
structure ExtractorCfg where
  chunk_size : Nat := 2000
  chunk_overlap : Nat := 200

/-- Convert one parsed array element into an `ExtractedEntity`
(`ExtractedEntity(type=entity_data.get('type', ''), ...)`).  Python
stores whatever JSON values appear in these fields; ill-typed values
(non-string name, and on key collision also non-dict properties or
non-numeric confidence) make `_merge_entities` raise later, which the
outer handler of `extract_from_text` turns into a failed result.  The
embedding keeps the typed fields and conservatively flags every
ill-typed element as that raising case (`none`); no claim exercises the
difference. -/
def entityOfJson (d : PyDict) (src : String) : Option ExtractedEntity :=
  match pyGetD d "type" (.str ""), pyGetD d "name" (.str ""),
        pyGetD d "properties" (.obj []), pyGetD d "confidence" (.num 1) with
  | .str t, .str n, .obj props, .num c => some ⟨t, n, props, c, src⟩
  | _, _, _, _ => none

/-- Convert one parsed array element into an `ExtractedRelation`; same
conventions as `entityOfJson`. -/
def relationOfJson (d : PyDict) (src : String) : Option ExtractedRelation :=
  match pyGetD d "type" (.str ""), pyGetD d "source" (.str ""),
        pyGetD d "target" (.str ""), pyGetD d "properties" (.obj []),
        pyGetD d "confidence" (.num 1) with
  | .str t, .str s, .str tg, .obj props, .num c => some ⟨t, s, tg, props, c, src⟩
  | _, _, _, _, _ => none

/-- Iterating `data.get('entities', [])`: a JSON array yields its
elements; an empty string/object iterates zero times; anything else
raises (`TypeError`/`AttributeError`) before producing an element. -/
def jsonIter (v : JVal) : Option (List JVal) :=
  match v with
  | .arr elems => some elems
  | .str s => if s = "" then some [] else none
  | .obj [] => some []
  | _ => none

/-- `InformationExtractor._parse_model_response`.  `none` models a
response that parses as JSON but whose elements would make the later
merge raise (see `entityOfJson`); `some ([], [])` covers both the
`json.JSONDecodeError` path (which falls back to
`_fallback_text_parsing`, returning empty lists) and the generic
exception path (which returns the lists built so far). -/
def parseModelResponse (response : String) (source_text : String) :
    Option (List ExtractedEntity × List ExtractedRelation) :=
  let rcs := response.toList
  let json_str : List Char :=
    match fencedJson rcs with
    | some s => s
    | none => pyStrip rcs
  match jsonLoadsCL json_str with
  | none => some ([], [])
  | some data =>
    match data with
    | .obj d =>
      match jsonIter (pyGetD d "entities" (.arr [])) with
      | none => some ([], [])
      | some eitems =>
        match eitems.mapM (fun v => match v with | .obj ed => entityOfJson ed source_text | _ => none) with
        | none => none
        | some entities =>
          match jsonIter (pyGetD d "relations" (.arr [])) with
          | none => some (entities, [])
          | some ritems =>
            match ritems.mapM (fun v => match v with | .obj rd => relationOfJson rd source_text | _ => none) with
            | none => none
            | some relations => some (entities, relations)
    | _ => some ([], [])

/-- `InformationExtractor._extract_from_chunk`, with `idx` the position
of the chunk in the per-chunk call order.  `none` propagates the
raise-later flag of `parseModelResponse`. -/
def extractFromChunk (env : XEnv) (idx : Nat) (chunk : String)
    (schema : Schema) : Option ExtractionResult :=
  let _schema_info := schema.rendering
  let response := env.generate idx
  if response.success then
    (parseModelResponse response.content chunk).map (fun er =>
      { entities := er.1
        relations := er.2
        source_text := chunk
        success := true })
  else
    some
      { entities := []
        relations := []
        source_text := chunk
        success := false
        error_message := "模型调用失败: " ++ response.error_message }

/-- The per-chunk loop of `extract_from_text`: accumulate all entities,
all relations and the per-chunk success count. -/
def chunkLoop (env : XEnv) (schema : Schema) :
    List (Nat × String) →
    Option (List ExtractedEntity × List ExtractedRelation × Nat)
  | [] => some ([], [], 0)
  | (i, chunk) :: rest =>
    match extractFromChunk env i chunk schema with
    | none => none
    | some r =>
      match chunkLoop env schema rest with
      | none => none
      | some (es, rs, n) =>
        if r.success then some (r.entities ++ es, r.relations ++ rs, n + 1)
        else some (es, rs, n)

/-- `InformationExtractor.extract_from_text`.  The outer `none` is
reserved for a diverging `_split_text` (the call never returns);  the
raise-later flag of ill-typed parsed elements is instead converted into
the failed result that the `except Exception` handler of
`extract_from_text` would produce. -/
def extractFromText (cfg : ExtractorCfg) (env : XEnv) (fuel : Nat)
    (text : List Char) : Option ExtractionResult :=
  match env.schema with
  | none =>
    some
      { entities := []
        relations := []
        source_text := text.asString
        success := false
        error_message := "Schema未加载" }
  | some schema =>
    match splitText text cfg.chunk_size cfg.chunk_overlap fuel with
    | none => none
    | some chunks =>
      let indexed := (List.range chunks.length).zip (chunks.map List.asString)
      match chunkLoop env schema indexed with
      | none =>
        some
          { entities := []
            relations := []
            source_text := text.asString
            success := false
            error_message := "AttributeError" }
      | some (all_entities, all_relations, success_count) =>
        some
          { entities := mergeEntities all_entities
            relations := mergeRelations all_relations
            source_text := text.asString
            success := 0 < success_count
            error_message := if 0 < success_count then "" else "所有文本块抽取失败"
            metadata := some
              { chunks_count := chunks.length
                success_chunks := success_count
                entities_before_merge := all_entities.length
                relations_before_merge := all_relations.length } }

/-! ### GraphRAG QA orchestrator (`graphrag_qa.py`)

Python exceptions become an explicit error value; the generation
collaborator (`ollama_client.generate_response`) is an oracle indexed by
call order, and the threaded `Nat` counts how many generation calls have
been issued — `try/except` preserves that count, as Python's caught
exceptions preserve already-performed side effects.  The Neo4j store,
the community summarizer and the community detector are oracle maps in
the environment (they catch their own errors and return status dicts,
so they are modelled as total). -/

/-- A raised Python exception, by kind. -/
inductive PyErr where
  | keyError
  | indexError
  | typeError
  | raised (msg : String)

/-- Computation threading the generation-call counter, with exceptions. -/
def QM (α : Type) := Nat → Except PyErr α × Nat

instance : Monad QM where
  pure a := fun s => (.ok a, s)
  bind x f := fun s =>
    match x s with
    | (.ok a, s1) => f a s1
    | (.error e, s1) => (.error e, s1)

/-- `try: body except Exception: handler` — the handler resumes with the
counter reached at the raise point. -/
def pyTry {α : Type} (body handler : QM α) : QM α :=
  fun s =>
    match body s with
    | (.ok a, s1) => (.ok a, s1)
    | (.error _, s1) => handler s1

/-- `raise`. -/
def pyThrow {α : Type} (e : PyErr) : QM α := fun s => (.error e, s)

/-- Embed a pure fallible computation. -/
def liftE {α : Type} (x : Except PyErr α) : QM α := fun s => (x, s)

/-- Result dict of `ollama_client.generate_response` (the fields the QA
orchestrator reads). -/
structure GenResp where
  success : Bool
  response : String := ""

/-- The `summary` sub-dict of a stored community summary (the fields
read by the QA prompt builders). -/
structure SummaryData where
  title : String := ""
  description : String := ""
  key_entities : List String := []
  key_relations : List String := []
  main_topics : List String := []

/-- Result dict of `community_summarizer.get_community_summary` (it
catches its own errors, hence total). -/
structure SummaryFetch where
  success : Bool
  summary : SummaryData := {}

/-- Result dict of `community_detector.get_community_subgraph`. -/
structure SubgraphFetch where
  success : Bool
  nodes : List String := []
  edges : List (String × String) := []

/-- One row of `_get_all_community_summaries` (a `CommunitySummary`
record straight from the Neo4j store). -/
structure SummaryRec where
  community_id : JVal
  title : String := ""
  description : String := ""
  key_entities : List String := []
  key_relations : List String := []
  main_topics : List String := []

/-- One `collect(...)` connection of a global-graph search row. -/
structure Conn where
  target : String
  relation : String

/-- One row of `_search_global_graph`. -/
structure SearchRec where
  entity : String
  entity_type : List String
  connections : List Conn

/-- External collaborators of `GraphRAGQA` (spec §6). -/
structure QEnv where
  generate : Nat → GenResp
  hasNeo4j : Bool
  allSummaries : List SummaryRec
  query : String → List SearchRec
  summaryOf : JVal → SummaryFetch
  subgraphOf : JVal → SubgraphFetch

/-- One call to the generation collaborator: consume the next oracle
response and advance the counter.  The prompt is carried for
traceability; the oracle is keyed on call order, which subsumes any
prompt-dependent behaviour of a deterministic run. -/
def genCall (env : QEnv) (prompt : String) : QM GenResp :=
  fun s =>
    let _ := prompt
    (.ok (env.generate s), s + 1)

/-- An answer dict (`response`/`sources`/`confidence`/`method`). -/
structure Answer where
  response : String
  sources : List String
  confidence : ℚ
  method : String
deriving DecidableEq

/-- Replace every occurrence of `pat` (non-empty) by `rep`, scanning
left to right (Python `str.replace`). -/
def replaceAux (pat rep : List Char) : Nat → List Char → List Char
  | 0, s => s
  | fuel + 1, s =>
    match s with
    | [] => []
    | c :: rest =>
      if pat ≠ [] ∧ headIsCL pat s then
        rep ++ replaceAux pat rep fuel (s.drop pat.length)
      else
        c :: replaceAux pat rep fuel rest

/-- Python `s.replace(pat, rep)`. -/
def pyReplace (s pat rep : String) : String :=
  (replaceAux pat.toList rep.toList s.toList.length s.toList).asString

/-- Python `s.split()`: split on whitespace runs, dropping empties. -/
def pySplitWsAux : List Char → List Char → List String
  | acc, [] => if acc = [] then [] else [acc.reverse.asString]
  | acc, c :: rest =>
    if isPyWs c then
      if acc = [] then pySplitWsAux [] rest
      else acc.reverse.asString :: pySplitWsAux [] rest
    else pySplitWsAux (c :: acc) rest

/-- Python `s.split()`. -/
def pySplitWs (s : String) : List String :=
  pySplitWsAux [] s.toList

/-- Python `needle in hay` on strings. -/
def containsSub (hay needle : String) : Bool :=
  (strFind hay.toList needle.toList).isSome

/-- `GraphRAGQA._extract_keywords_from_question`. -/
def extractKeywords (question : String) : List String :=
  let stop_words : List String :=
    ["什么", "如何", "为什么", "哪里", "谁", "是", "的", "了", "在", "和", "与"]
  let words := pySplitWs (pyReplace (pyReplace (pyReplace question "？" "") "?" "") "，" " ")
  let keywords := words.filter (fun w => 1 < w.length ∧ w ∉ stop_words)
  keywords.take 5

/-- `GraphRAGQA._search_global_graph`: one keyword query per extracted
keyword, results concatenated; its own handler returns `[]`. -/
def searchGlobalGraph (env : QEnv) (question : String) : QM (List SearchRec) :=
  pyTry
    (if ¬ env.hasNeo4j then pure []
     else
       let keywords := extractKeywords question
       pure (keywords.foldl (fun acc kw => acc ++ env.query kw) []))
    (pure [])

/-- `GraphRAGQA._format_search_results`. -/
def formatSearchResults (results : List SearchRec) : String :=
  String.intercalate "\n\n" (results.map (fun r =>
    let info := "实体: " ++ r.entity ++ " (类型: " ++ String.intercalate ", " r.entity_type ++ ")"
    let conn_info := ((r.connections.filter (fun c => c.target ≠ "")).map
      (fun c => c.target ++ "-" ++ c.relation)).take 5
    if r.connections.isEmpty then info
    else info ++ "\n关系: " ++ String.intercalate ", " conn_info))

/-- The global-search answer prompt of `_global_first_search`. -/
def globalAnswerPrompt (question results_str : String) : String :=
  "\n基于以下知识图谱信息回答问题：\n\n问题: " ++ question ++
  "\n\n相关信息：\n" ++ results_str ++
  "\n\n请基于提供的信息给出准确、详细的答案。如果信息不足，请说明。\n"

/-- `GraphRAGQA._global_first_search`. -/
def globalFirstSearch (env : QEnv) (question : String) : QM Answer :=
  pyTry
    (do
      let search_results ← searchGlobalGraph env question
      let answer_prompt := globalAnswerPrompt question (formatSearchResults search_results)
      let resp ← genCall env answer_prompt
      if resp.success then
        pure
          { response := resp.response
            sources := ["全局图搜索"]
            confidence := mkRat 6 10
            method := "global_first" }
      else pyThrow (.raised "LLM生成答案失败"))
    (pure
      { response := "抱歉，无法找到相关信息来回答您的问题。"
        sources := []
        confidence := mkRat 1 10
        method := "fallback" })

/-- A community context dict assembled by `_community_first_search`; the
`subgraph` key is optional. -/
structure Ctx where
  community_id : JVal
  summary : SummaryData
  relevance : JVal
  subgraph : Option SubgraphFetch := none

/-- `community_contexts[-1]["subgraph"] = subgraph`: set the key on the
last element; `none` when the list is empty (Python `IndexError`). -/
def setLastSubgraph (g : SubgraphFetch) : List Ctx → Option (List Ctx)
  | [] => none
  | [c] => some [{ c with subgraph := some g }]
  | c :: c2 :: rest => (setLastSubgraph g (c2 :: rest)).map (fun l => c :: l)

/-- One iteration of the `for comm in top_communities` loop of
`_community_first_search`: append a context when the summary fetch
succeeds, then attach the subgraph to the **last list element** when the
subgraph fetch succeeds. -/
def ctxStep (env : QEnv) (acc : List Ctx) (comm : PyDict) : QM (List Ctx) := do
  let cid ←
    match pyGet comm "community_id" with
    | some v => pure v
    | none => pyThrow .keyError
  let summary := env.summaryOf cid
  let acc1 :=
    if summary.success then
      acc ++ [{ community_id := cid
                summary := summary.summary
                relevance := pyGetD comm "relevance_score" (.num 0) }]
    else acc
  let subgraph := env.subgraphOf cid
  if subgraph.success then
    match setLastSubgraph subgraph acc1 with
    | some acc2 => pure acc2
    | none => pyThrow .indexError
  else pure acc1

/-- The full context-assembly loop of `_community_first_search`. -/
def buildCommunityContexts (env : QEnv) (top : List PyDict) : QM (List Ctx) :=
  top.foldlM (ctxStep env) []

/-- Render `{x:.2f}` for the numeric relevance (rounding here is
half-up; Python uses half-even — the difference can only show in prompt
text, which the oracle ignores). -/
def fmt2f (q : ℚ) : String :=
  let r : Int := round (q * 100)
  let sign := if r < 0 then "-" else ""
  let a := r.natAbs
  sign ++ toString (a / 100) ++ "." ++ (if a % 100 < 10 then "0" else "") ++ toString (a % 100)

/-- Python `str()` of the JSON values that reach prompt text (community
ids; integers render without a decimal point). -/
def qStr (v : JVal) : String :=
  match v with
  | .num q => if q.den = 1 then toString q.num else toString q
  | .str s => s
  | .bool b => if b then "True" else "False"
  | .null => "None"
  | .arr _ => "[...]"
  | .obj _ => "\x7b...\x7d"

/-- `GraphRAGQA._build_community_answer_prompt`; raises when the stored
relevance is not a number (Python's `:.2f` would). -/
def buildCommunityAnswerPrompt (question : String) (ctxs : List Ctx) :
    Except PyErr String := do
  let infos ← ctxs.mapM (fun ctx => do
    let rel ←
      match ctx.relevance with
      | .num q => Except.ok (fmt2f q)
      | _ => Except.error PyErr.typeError
    let info :=
      "\n社区 " ++ qStr ctx.community_id ++ " (相关性: " ++ rel ++ "):\n摘要: " ++
      (if ctx.summary.description = "" then "无描述" else ctx.summary.description) ++
      "\n关键实体: " ++ String.intercalate ", " ctx.summary.key_entities ++
      "\n关键关系: " ++ String.intercalate ", " ctx.summary.key_relations ++ "\n"
    match ctx.subgraph with
    | some g =>
      Except.ok (info ++ "节点数: " ++ toString g.nodes.length ++
        ", 关系数: " ++ toString g.edges.length ++ "\n")
    | none => Except.ok info)
  Except.ok
    ("\n基于以下社区信息回答问题：\n\n问题: " ++ question ++
     "\n\n相关社区信息:\n" ++ String.intercalate "\n" infos ++
     "\n\n请基于这些社区信息给出准确、详细的答案。重点关注最相关的社区信息。\n")

/-- `GraphRAGQA._community_first_search`. -/
def communityFirstSearch (env : QEnv) (question : String)
    (relevant_communities : List PyDict) : QM Answer :=
  pyTry
    (if relevant_communities.isEmpty then globalFirstSearch env question
     else do
      let top_communities := relevant_communities.take 3
      let community_contexts ← buildCommunityContexts env top_communities
      let answer_prompt ← liftE (buildCommunityAnswerPrompt question community_contexts)
      let resp ← genCall env answer_prompt
      if resp.success then
        pure
          { response := resp.response
            sources := community_contexts.map (fun ctx => "社区 " ++ qStr ctx.community_id)
            confidence := mkRat 8 10
            method := "community_first" }
      else pyThrow (.raised "LLM生成答案失败"))
    (globalFirstSearch env question)

/-- Order-preserving deduplication standing in for Python's
`list(set(sources))` (whose ordering is unspecified; no claim depends on
it). -/
def dedupAux (seen : List String) : List String → List String
  | [] => []
  | x :: rest =>
    if x ∈ seen then dedupAux seen rest
    else x :: dedupAux (x :: seen) rest

/-- `list(set(l))`, modelled as first-occurrence order. -/
def pyListSet (l : List String) : List String :=
  dedupAux [] l

/-- The synthesis prompt of `_hybrid_search`. -/
def synthesisPrompt (question commText globalText : String) : String :=
  "\n问题: " ++ question ++ "\n\n社区搜索结果:\n" ++ commText ++
  "\n\n全局搜索结果:\n" ++ globalText ++
  "\n\n请综合以上信息，给出最准确、最完整的答案。\n"

/-- `GraphRAGQA._hybrid_search`. -/
def hybridSearch (env : QEnv) (question : String)
    (relevant_communities : List PyDict) : QM Answer :=
  pyTry
    (do
      let community_results ←
        if relevant_communities.isEmpty then pure ([] : List Answer)
        else do
          let community_answer ← communityFirstSearch env question relevant_communities
          pure [community_answer]
      let global_answer ← globalFirstSearch env question
      let commText :=
        match community_results with
        | a :: _ => a.response
        | [] => "无社区相关信息"
      let resp ← genCall env (synthesisPrompt question commText global_answer.response)
      if resp.success then
        let sources :=
          (match community_results with
           | a :: _ => a.sources
           | [] => []) ++ global_answer.sources
        pure
          { response := resp.response
            sources := pyListSet sources
            confidence := mkRat 7 10
            method := "hybrid" }
      else
        match community_results with
        | a :: _ =>
          if global_answer.confidence < a.confidence then pure a else pure global_answer
        | [] => pure global_answer)
    (globalFirstSearch env question)

/-- `GraphRAGQA._get_all_community_summaries`. -/
def getAllCommunitySummaries (env : QEnv) : QM (List SummaryRec) :=
  pyTry (if ¬ env.hasNeo4j then pure [] else pure env.allSummaries) (pure [])

/-- `GraphRAGQA._format_communities_for_prompt`. -/
def formatCommunitiesForPrompt (summaries : List SummaryRec) : String :=
  String.intercalate "\n" (summaries.map (fun s =>
    "\n社区 " ++ qStr s.community_id ++ ":\n标题: " ++
    (if s.title = "" then "未知" else s.title) ++ "\n描述: " ++
    (if s.description = "" then "无描述" else s.description) ++
    "\n主要主题: " ++ String.intercalate ", " s.main_topics ++ "\n"))

/-- The relevance-analysis prompt of `_find_relevant_communities`. -/
def relevancePrompt (question rendered : String) : String :=
  "\n问题: " ++ question ++ "\n\n以下是知识图谱中的社区摘要信息：\n" ++ rendered ++
  "\n\n请分析这个问题与哪些社区最相关，按相关性从高到低排序。\n" ++
  "请返回JSON格式，包含community_id和relevance_score（0-1之间）。\n\n示例格式：\n[\n" ++
  "    \x7b\"community_id\": 1, \"relevance_score\": 0.9, \"reason\": \"直接相关\"\x7d,\n" ++
  "    \x7b\"community_id\": 2, \"relevance_score\": 0.6, \"reason\": \"部分相关\"\x7d\n]\n"

/-- Numeric interpretation of a JSON value in a Python comparison
(`bool` is numeric in Python; anything else raises `TypeError` against a
float). -/
def scoreVal (v : JVal) : Option ℚ :=
  match v with
  | .num q => some q
  | .bool b => some (if b then 1 else 0)
  | _ => none

/-- The sort key `x.get("relevance_score", 0)`, as the numeric value the
comparison sees (junk value 0 for non-numerics, which cannot survive the
filter). -/
def kScore (item : PyDict) : ℚ :=
  match pyGet item "relevance_score" with
  | none => 0
  | some v => (scoreVal v).getD 0

/-- `item.get("relevance_score", 0)` as used in the `> 0.3` filter;
raises on a non-numeric value. -/
def itemScore (item : PyDict) : Except PyErr ℚ :=
  match pyGet item "relevance_score" with
  | none => .ok 0
  | some v =>
    match scoreVal v with
    | some q => .ok q
    | none => .error .typeError

/-- Iterating `relevance_data` as a list of dicts; non-dict elements or
a non-iterable/ill-shaped top value raise (caught by the **outer**
handler of `_find_relevant_communities`, not the inner
`except json.JSONDecodeError`). -/
def jvalItems (v : JVal) : Except PyErr (List PyDict) :=
  match v with
  | .arr elems =>
    elems.mapM (fun x =>
      match x with
      | .obj d => Except.ok d
      | _ => Except.error PyErr.typeError)
  | .str s => if s = "" then .ok [] else .error .typeError
  | .obj [] => .ok []
  | _ => .error .typeError

/-- Python `sorted(l, key=k, reverse=True)`: stable descending sort by a
numeric key. -/
def pySortDesc (key : PyDict → ℚ) (l : List PyDict) : List PyDict :=
  List.insertionSort (fun a b => key b ≤ key a) l

/-- `GraphRAGQA._keyword_based_community_matching`. -/
def keywordCommunityMatching (question : String) (summaries : List SummaryRec) :
    List PyDict :=
  let keywords := extractKeywords question
  let relevant_communities := summaries.foldl (fun acc summary =>
    let description := strToLower summary.description
    let topics := summary.main_topics
    let score := keywords.foldl (fun sc keyword =>
      let sc1 := if containsSub description (strToLower keyword) then sc + mkRat 3 10 else sc
      if keyword ∈ topics then sc1 + mkRat 5 10 else sc1) (0 : ℚ)
    if 0 < score then
      acc ++ [[("community_id", summary.community_id),
               ("relevance_score", JVal.num (min score 1)),
               ("reason", JVal.str "关键词匹配")]]
    else acc) []
  pySortDesc kScore relevant_communities

/-- `GraphRAGQA._find_relevant_communities`. -/
def findRelevantCommunities (env : QEnv) (question : String) : QM (List PyDict) :=
  pyTry
    (do
      let all_summaries ← getAllCommunitySummaries env
      if all_summaries.isEmpty then pure []
      else do
        let prompt := relevancePrompt question (formatCommunitiesForPrompt all_summaries)
        let resp ← genCall env prompt
        if resp.success then
          match jsonLoads resp.response with
          | some relevance_data => do
            let items ← liftE (jvalItems relevance_data)
            let scored ← liftE (items.mapM (fun it => (itemScore it).map (fun q => (it, q))))
            let relevant := (scored.filter (fun p => mkRat 3 10 < p.2)).map (fun p => p.1)
            pure (pySortDesc kScore relevant)
          | none => pure (keywordCommunityMatching question all_summaries)
        else pure (keywordCommunityMatching question all_summaries))
    (pure [])

/-- Environment of the C4 counterexample: the community-first answer
call (call 0) fails, its internal global fallback (call 1) succeeds with
"A", the hybrid global sub-search (call 2) succeeds with "B", and the
synthesis call (call 3) fails. -/
def c4Env : QEnv :=
  { generate := fun i =>
      if i = 1 then { success := true, response := "A" }
      else if i = 2 then { success := true, response := "B" }
      else { success := false }
    hasNeo4j := true
    allSummaries := []
    query := fun _ => []
    summaryOf := fun _ => { success := true, summary := { description := "d" } }
    subgraphOf := fun _ => { success := true } }

/-- Ranked community list of the C4 counterexample. -/
def c4Rcs : List PyDict :=
  [[("community_id", JVal.num 1), ("relevance_score", JVal.num (mkRat 9 10))]]

/-- The community sub-result of the C4 counterexample run (obtained via
the internal global fallback, hence confidence 0.6 and response "A"). -/
def c4CommunityAnswer : Answer :=
  { response := "A"
    sources := ["全局图搜索"]
    confidence := mkRat 6 10
    method := "global_first" }

/-- The global sub-result of the C4 counterexample run. -/
def c4GlobalAnswer : Answer :=
  { response := "B"
    sources := ["全局图搜索"]
    confidence := mkRat 6 10
    method := "global_first" }

/-- Environment of the C9 witness: the relevance call returns a JSON
array with scores 0.5, 0.9 and 0.2 (the last below the 0.3 cut-off). -/
def c9Env : QEnv :=
  { generate := fun _ =>
      { success := true
        response := "[\x7b\"community_id\": 2, \"relevance_score\": 0.5\x7d, " ++
          "\x7b\"community_id\": 1, \"relevance_score\": 0.9\x7d, " ++
          "\x7b\"community_id\": 3, \"relevance_score\": 0.2\x7d]" }
    hasNeo4j := true
    allSummaries := [{ community_id := JVal.num 1 }, { community_id := JVal.num 2 }]
    query := fun _ => []
    summaryOf := fun _ => { success := false }
    subgraphOf := fun _ => { success := false } }

/-- Environment of the C10 witness: community 1 has a summary but no
subgraph, community 2 has a subgraph but no summary. -/
def c10Env : QEnv :=
  { generate := fun _ => { success := true, response := "ok" }
    hasNeo4j := true
    allSummaries := []
    query := fun _ => []
    summaryOf := fun v =>
      match v with
      | .num q => if q = 1 then { success := true, summary := { description := "d1" } }
                  else { success := false }
      | _ => { success := false }
    subgraphOf := fun v =>
      match v with
      | .num q => if q = 1 then { success := false }
                  else { success := true, nodes := ["n"] }
      | _ => { success := true, nodes := ["n"] } }

/-! ## Theorems -/

/-- Key membership after a single Python dict assignment. -/
theorem mem_pyKeys_pySet (d : PyDict) (k : String) (v : JVal) (a : String) :
    a ∈ pyKeys (pySet d k v) ↔ a ∈ pyKeys d ∨ a = k := by
  unfold pySet
  by_cases h : d.any (fun p => p.1 = k)
  · simp only [h, if_true]
    have hk : k ∈ pyKeys d := by
      rcases List.any_eq_true.mp h with ⟨p, hp, hpk⟩
      simp only [decide_eq_true_eq] at hpk
      exact hpk ▸ List.mem_map_of_mem Prod.fst hp
    have hkeys : pyKeys (d.map (fun p => if p.1 = k then (k, v) else p)) = pyKeys d := by
      unfold pyKeys
      rw [List.map_map]
      apply List.map_congr_left
      intro p _
      by_cases hp : p.1 = k <;> simp [hp]
    rw [hkeys]
    constructor
    · exact fun h1 => Or.inl h1
    · rintro (h1 | rfl)
      · exact h1
      · exact hk
  · simp only [h, if_false]
    unfold pyKeys
    simp

/-- Key-set union property of Python `dict.update`. -/
theorem mem_pyKeys_pyUpdate (d o : PyDict) (a : String) :
    a ∈ pyKeys (pyUpdate d o) ↔ a ∈ pyKeys d ∨ a ∈ pyKeys o := by
  induction o generalizing d with
  | nil => simp [pyUpdate, pyKeys]
  | cons kv o ih =>
    have step : pyUpdate d (kv :: o) = pyUpdate (pySet d kv.1 kv.2) o := rfl
    rw [step, ih, mem_pyKeys_pySet]
    unfold pyKeys
    simp only [List.map_cons, List.mem_cons]
    tauto

/-- C1: merging entity A (confidence 0.9, properties `{title: "PM"}`)
with a later-seen entity B (confidence 0.5, properties
`{title: "Manager"}`) sharing the identity key `(type, lowercase(name))`
yields exactly one merged entity whose properties are `{title: "PM"}`
(the higher-confidence value wins the key conflict) while the stored
confidence is the lower, later 0.5. -/
theorem c1_merge_confidence_example :
    mergeEntities
      [ { type := "Person", name := "Alice",
          properties := [("title", JVal.str "PM")], confidence := mkRat 9 10 },
        { type := "Person", name := "alice",
          properties := [("title", JVal.str "Manager")], confidence := mkRat 5 10 } ] =
      [ { type := "Person", name := "alice",
          properties := [("title", JVal.str "PM")], confidence := mkRat 5 10 } ] := by
  rfl

/-- C5: for any two extracted entities sharing the identity key, the
entity surviving the merge has a property-key set equal to the union of
both inputs' property-key sets, regardless of confidence ordering and of
the order in which they are seen. -/
theorem c5_merge_key_union (e1 e2 : ExtractedEntity)
    (h : entityKey e1 = entityKey e2) :
    ∃ m, mergeEntities [e1, e2] = [m] ∧
      ∀ k, k ∈ pyKeys m.properties ↔
        k ∈ pyKeys e1.properties ∨ k ∈ pyKeys e2.properties := by
  have hstep : mergeEntities [e1, e2] =
      (mergeEntityStep [(entityKey e1, e1)] e2).map (fun p => p.2) := rfl
  have hfind : assocFind [(entityKey e1, e1)] (entityKey e2) = some e1 := by
    rw [← h]
    simp [assocFind]
  rw [hstep]
  simp only [mergeEntityStep, hfind]
  by_cases hc : e1.confidence < e2.confidence
  · rw [if_pos hc]
    simp only [assocReplace, ← h, List.map_cons, List.map_nil, eq_self_iff_true, if_true]
    exact ⟨_, rfl, fun k => mem_pyKeys_pyUpdate e1.properties e2.properties k⟩
  · rw [if_neg hc]
    simp only [assocReplace, ← h, List.map_cons, List.map_nil, eq_self_iff_true, if_true]
    refine ⟨_, rfl, fun k => ?_⟩
    rw [mem_pyKeys_pyUpdate e2.properties e1.properties k]
    tauto

/-- Witness for C5 at a concrete pair of entities sharing the key. -/
theorem c5_witness :
    entityKey { type := "Person", name := "Bob",
                properties := [("a", JVal.num 1)], confidence := mkRat 1 2 } =
      entityKey { type := "Person", name := "bob",
                  properties := [("b", JVal.num 2)], confidence := mkRat 3 4 } ∧
    ∃ m, mergeEntities
        [ { type := "Person", name := "Bob",
            properties := [("a", JVal.num 1)], confidence := mkRat 1 2 },
          { type := "Person", name := "bob",
            properties := [("b", JVal.num 2)], confidence := mkRat 3 4 } ] = [m] ∧
      ∀ k, k ∈ pyKeys m.properties ↔
        k ∈ pyKeys [("a", JVal.num 1)] ∨ k ∈ pyKeys [("b", JVal.num 2)] :=
  ⟨by decide, c5_merge_key_union _ _ (by decide)⟩

/-! ### Segmenter lemmas -/

/-- A `foldl max` over a list lands on the seed or an element. -/
theorem foldl_max_mem (xs : List Int) : ∀ x : Int, xs.foldl max x ∈ x :: xs := by
  induction xs with
  | nil => intro x; simp
  | cons y ys ih =>
    intro x
    have h := ih (max x y)
    rw [List.foldl_cons]
    rcases List.mem_cons.mp h with h1 | h1
    · rcases max_choice x y with hm | hm
      · rw [h1, hm]; exact List.mem_cons_self _ _
      · rw [h1, hm]; simp
    · simp only [List.mem_cons]
      tauto

/-- `pyMaxD l d` is `d` or an element of `l`. -/
theorem pyMaxD_mem (l : List Int) (d : Int) : pyMaxD l d = d ∨ pyMaxD l d ∈ l := by
  match l with
  | [] => exact Or.inl rfl
  | x :: xs =>
    right
    unfold pyMaxD
    exact foldl_max_mem xs x

/-- In an emit-and-continue step with a positive chunk size, the emitted
span starts at the cursor, ends strictly after it, and the next cursor
is exactly `overlap` before the span's end. -/
theorem splitStep_cont_eq (text : List Char) (cs ov : Nat) (hcs : 0 < cs)
    (start a b next : Int)
    (h : splitStep text cs ov start = .cont a b next) :
    a = start ∧ next = b - (ov : Int) ∧ start < b := by
  unfold splitStep at h
  by_cases hne : (text.length : Int) ≤ start + (cs : Int)
  · rw [if_pos hne] at h
    simp at h
  · rw [if_neg hne] at h
    simp only at h
    by_cases hbest : (0 : Int) <
        pyMaxD (((splitDelims.map (pyRfind (pySlice text start (start + (cs : Int))))).filter
          (fun p => ((cs / 2 : Nat) : Int) < p))) (-1)
    · rw [if_pos hbest] at h
      obtain ⟨ha, hb, hn⟩ := SplitStep.cont.inj h
      refine ⟨ha.symm, by omega, by omega⟩
    · rw [if_neg hbest] at h
      obtain ⟨ha, hb, hn⟩ := SplitStep.cont.inj h
      refine ⟨ha.symm, by omega, by omega⟩

/-- With `overlap < max_size` and `overlap < max_size/2 + 2`, every
emit-and-continue step moves the cursor strictly forward. -/
theorem splitStep_cont_advance (text : List Char) (cs ov : Nat)
    (h1 : ov < cs) (h2 : ov < cs / 2 + 2) (start a b next : Int)
    (h : splitStep text cs ov start = .cont a b next) :
    start < next := by
  unfold splitStep at h
  by_cases hne : (text.length : Int) ≤ start + (cs : Int)
  · rw [if_pos hne] at h
    simp at h
  · rw [if_neg hne] at h
    simp only at h
    set filtered := ((splitDelims.map (pyRfind (pySlice text start (start + (cs : Int))))).filter
      (fun p => ((cs / 2 : Nat) : Int) < p)) with hf
    by_cases hbest : (0 : Int) < pyMaxD filtered (-1)
    · rw [if_pos hbest] at h
      obtain ⟨_, _, hn⟩ := SplitStep.cont.inj h
      have hmem := pyMaxD_mem filtered (-1)
      rcases hmem with hd | hmem
      · omega
      · have hgt : ((cs / 2 : Nat) : Int) < pyMaxD filtered (-1) := by
          have := List.of_mem_filter hmem
          simpa using this
        have hov : (ov : Int) < ((cs / 2 : Nat) : Int) + 2 := by
          exact_mod_cast h2
        omega
    · rw [if_neg hbest] at h
      obtain ⟨_, _, hn⟩ := SplitStep.cont.inj h
      have hov : (ov : Int) < (cs : Int) := by exact_mod_cast h1
      omega

/-- Under the strict-advance conditions, the loop finishes once the fuel
covers the distance from the cursor to the end of the text. -/
theorem splitAux_isSome (text : List Char) (cs ov : Nat)
    (h1 : ov < cs) (h2 : ov < cs / 2 + 2) :
    ∀ (fuel : Nat) (start : Int), (text.length : Int) - start ≤ (fuel : Int) →
      (splitAux text cs ov fuel start).isSome := by
  intro fuel
  induction fuel with
  | zero =>
    intro start hle
    have hns : ¬ start < (text.length : Int) := by omega
    unfold splitAux
    rw [if_neg hns]
    rfl
  | succ f ih =>
    intro start hle
    by_cases hs : start < (text.length : Int)
    · unfold splitAux
      rw [if_pos hs]
      cases hstep : splitStep text cs ov start with
      | last a => rfl
      | cont a b next =>
        have hadv := splitStep_cont_advance text cs ov h1 h2 start a b next hstep
        have hnext := ih next (by push_cast at hle; omega)
        show (Option.map (fun r => pySlice text a b :: r)
          (splitAux text cs ov f next)).isSome = true
        cases hsp : splitAux text cs ov f next
        · rw [hsp] at hnext
          simp at hnext
        · simp
    · unfold splitAux
      rw [if_neg hs]
      rfl

/-- The chunk-level and span-level loops agree: each emitted chunk is
the Python slice of its recorded span. -/
theorem splitAux_eq_spans (text : List Char) (cs ov : Nat) :
    ∀ (fuel : Nat) (start : Int),
      splitAux text cs ov fuel start =
        (splitSpansAux text cs ov fuel start).map
          (List.map (fun sp => pySlice text sp.1 sp.2)) := by
  intro fuel
  induction fuel with
  | zero =>
    intro start
    unfold splitAux splitSpansAux
    by_cases hs : start < (text.length : Int)
    · rw [if_pos hs, if_pos hs]
      cases hstep : splitStep text cs ov start <;> rfl
    · rw [if_neg hs, if_neg hs]
      rfl
  | succ f ih =>
    intro start
    unfold splitAux splitSpansAux
    by_cases hs : start < (text.length : Int)
    · rw [if_pos hs, if_pos hs]
      cases hstep : splitStep text cs ov start with
      | last a => rfl
      | cont a b next =>
        show Option.map (fun r => pySlice text a b :: r) (splitAux text cs ov f next) =
          Option.map (List.map (fun sp => pySlice text sp.1 sp.2))
            (Option.map (fun r => (a, b) :: r) (splitSpansAux text cs ov f next))
        cases hsp : splitSpansAux text cs ov f next <;> simp [ih next, hsp]
    · rw [if_neg hs, if_neg hs]
      rfl

/-- Coverage invariant of the span-level loop: a finished run starting
at a non-negative cursor covers every position from the cursor to the
end of the text. -/
theorem splitSpansAux_covers (text : List Char) (cs ov : Nat)
    (h1 : ov < cs) (h2 : ov < cs / 2 + 2) :
    ∀ (fuel : Nat) (start : Int) (spans : List (Int × Int)),
      0 ≤ start →
      splitSpansAux text cs ov fuel start = some spans →
      ∀ i : Nat, start ≤ (i : Int) → (i : Int) < (text.length : Int) →
        ∃ sp ∈ spans, sp.1 ≤ (i : Int) ∧ (i : Int) < sp.2 := by
  intro fuel
  induction fuel with
  | zero =>
    intro start spans hstart hrun i hi hin
    have hs : start < (text.length : Int) := by omega
    unfold splitSpansAux at hrun
    rw [if_pos hs] at hrun
    cases hstep : splitStep text cs ov start with
    | last a =>
      rw [hstep] at hrun
      have ha : a = start := by
        unfold splitStep at hstep
        by_cases hne : (text.length : Int) ≤ start + (cs : Int)
        · rw [if_pos hne] at hstep
          exact (SplitStep.last.inj hstep).symm
        · rw [if_neg hne] at hstep
          simp only at hstep
          split at hstep <;> simp at hstep
      obtain rfl : [(a, (text.length : Int))] = spans := Option.some.inj hrun
      exact ⟨(a, (text.length : Int)), List.mem_singleton_self _, by omega, by omega⟩
    | cont a b next =>
      rw [hstep] at hrun
      exact absurd hrun (by simp)
  | succ f ih =>
    intro start spans hstart hrun i hi hin
    have hs : start < (text.length : Int) := by omega
    unfold splitSpansAux at hrun
    rw [if_pos hs] at hrun
    cases hstep : splitStep text cs ov start with
    | last a =>
      rw [hstep] at hrun
      have ha : a = start := by
        unfold splitStep at hstep
        by_cases hne : (text.length : Int) ≤ start + (cs : Int)
        · rw [if_pos hne] at hstep
          exact (SplitStep.last.inj hstep).symm
        · rw [if_neg hne] at hstep
          simp only at hstep
          split at hstep <;> simp at hstep
      obtain rfl : [(a, (text.length : Int))] = spans := Option.some.inj hrun
      exact ⟨(a, (text.length : Int)), List.mem_singleton_self _, by omega, by omega⟩
    | cont a b next =>
      rw [hstep] at hrun
      obtain ⟨rest, hrest, hspans⟩ := Option.map_eq_some'.mp hrun
      obtain ⟨ha, hnext, hab⟩ :=
        splitStep_cont_eq text cs ov (by omega) start a b next hstep
      have hadv := splitStep_cont_advance text cs ov h1 h2 start a b next hstep
      subst ha
      by_cases hib : (i : Int) < b
      · exact ⟨(a, b), hspans ▸ List.mem_cons_self _ _, by omega, hib⟩
      · have hnext0 : 0 ≤ next := by omega
        have hinext : next ≤ (i : Int) := by omega
        obtain ⟨sp, hsp, hsp1, hsp2⟩ := ih next rest hnext0 hrest i hinext hin
        exact ⟨sp, hspans ▸ List.mem_cons_of_mem _ hsp, hsp1, hsp2⟩

/-- On `badSplitInput` with `chunk_size 10`, `overlap 9`, the loop is
stuck in the cursor cycle 0 → -2 → -1 → 0 and never finishes. -/
theorem splitAux_cex_none :
    ∀ fuel : Nat,
      splitAux badSplitInput 10 9 fuel 0 = none ∧
      splitAux badSplitInput 10 9 fuel (-2) = none ∧
      splitAux badSplitInput 10 9 fuel (-1) = none := by
  intro fuel
  induction fuel with
  | zero => exact ⟨rfl, rfl, rfl⟩
  | succ f ih =>
    obtain ⟨ih0, ih2, ih1⟩ := ih
    refine ⟨?_, ?_, ?_⟩
    · have e : splitAux badSplitInput 10 9 (f + 1) 0 =
          Option.map (fun r => pySlice badSplitInput 0 7 :: r)
            (splitAux badSplitInput 10 9 f (-2)) := rfl
      rw [e, ih2]
      rfl
    · have e : splitAux badSplitInput 10 9 (f + 1) (-2) =
          Option.map (fun r => pySlice badSplitInput (-2) 8 :: r)
            (splitAux badSplitInput 10 9 f (-1)) := rfl
      rw [e, ih1]
      rfl
    · have e : splitAux badSplitInput 10 9 (f + 1) (-1) =
          Option.map (fun r => pySlice badSplitInput (-1) 9 :: r)
            (splitAux badSplitInput 10 9 f 0) := rfl
      rw [e, ih0]
      rfl

/-- Python slicing the whole text is the identity. -/
theorem pySlice_full (xs : List Char) : pySlice xs 0 (xs.length : Int) = xs := by
  have hb : pyBound xs.length (xs.length : Int) = xs.length := by
    unfold pyBound
    rw [if_neg (by omega)]
    simp
  have ha : pyBound xs.length 0 = 0 := by
    unfold pyBound
    rw [if_neg (by omega)]
    simp
  unfold pySlice
  rw [ha, hb, List.take_length, List.drop_zero]

/-- C3: the claim states that `overlap < max_size` alone makes the
cursor strictly advance on every loop iteration.  Counterexample: on
`badSplitInput` with `max_size 10`, `overlap 9` (so `overlap <
max_size`), the first iteration is a delimiter cut at `p = 6` and moves
the cursor from 0 to `6 + 1 - 9 = -2`, strictly backwards — and the loop
in fact never terminates on this input. -/
theorem c3_counterexample :
    9 < 10 ∧
    splitStep badSplitInput 10 9 0 = SplitStep.cont 0 7 (-2) ∧
    ¬ ((0 : Int) < -2) ∧
    splitDiverges badSplitInput 10 9 := by
  refine ⟨by decide, rfl, by decide, fun fuel => ?_⟩
  unfold splitText
  rw [if_neg (by decide)]
  exact (splitAux_cex_none fuel).1

/-- C3 (amended): the delimiter-cut advance is `p + 1 - overlap` with
`p ≥ max_size/2 + 1` only, so strict advance needs `overlap <
max_size/2 + 2` in addition to `overlap < max_size`; under those two
conditions every emit-and-continue step strictly advances the cursor and
segmentation finishes within `len(text) + 1` iterations. -/
theorem c3_cursor_advance_terminates (text : List Char) (cs ov : Nat)
    (h1 : ov < cs) (h2 : ov < cs / 2 + 2) :
    (∀ start a b next, splitStep text cs ov start = .cont a b next → start < next) ∧
    ∃ chunks, splitText text cs ov (text.length + 1) = some chunks := by
  refine ⟨fun start a b next h =>
    splitStep_cont_advance text cs ov h1 h2 start a b next h, ?_⟩
  unfold splitText
  by_cases hlen : text.length ≤ cs
  · rw [if_pos hlen]
    exact ⟨[text], rfl⟩
  · rw [if_neg hlen]
    have h := splitAux_isSome text cs ov h1 h2 (text.length + 1) 0 (by push_cast; omega)
    exact Option.isSome_iff_exists.mp h

/-- Witness for C3 (amended) at the spec's worked example
(`max_size 10`, `overlap 2`). -/
theorem c3_witness :
    2 < 10 ∧ 2 < 10 / 2 + 2 ∧
    ((∀ start a b next,
        splitStep "1234567890ABCDEFGHIJ".toList 10 2 start = .cont a b next →
          start < next) ∧
     ∃ chunks, splitText "1234567890ABCDEFGHIJ".toList 10 2
        ("1234567890ABCDEFGHIJ".toList.length + 1) = some chunks) :=
  ⟨by decide, by decide,
    c3_cursor_advance_terminates "1234567890ABCDEFGHIJ".toList 10 2
      (by decide) (by decide)⟩

/-- C6: the claim states that `overlap < max_size` alone guarantees the
emitted chunk spans cover `[0, len(text))`.  Counterexample: on
`badSplitInput` with `max_size 10`, `overlap 9` the segmenter never
finishes — no fuel bound yields a chunk list at all, let alone a
covering one (the emitted prefix covers only `[0, 7)` while the text has
16 characters). -/
theorem c6_counterexample :
    9 < 10 ∧ ¬ ∃ fuel, splitCovers badSplitInput 10 9 fuel := by
  refine ⟨by decide, ?_⟩
  rintro ⟨fuel, spans, hspans, _⟩
  have hnone : splitSpans badSplitInput 10 9 fuel = none := by
    unfold splitSpans
    rw [if_neg (by decide)]
    have h1 := (splitAux_cex_none fuel).1
    rw [splitAux_eq_spans] at h1
    exact Option.map_eq_none'.mp h1
  rw [hnone] at hspans
  exact Option.noConfusion hspans

/-- C6 (amended): with `overlap < max_size` **and** `overlap <
max_size/2 + 2`, segmentation finishes and the spans of the emitted
chunks cover every character position of `[0, len(text))`. -/
theorem c6_coverage (text : List Char) (cs ov : Nat)
    (h1 : ov < cs) (h2 : ov < cs / 2 + 2) :
    ∃ spans chunks,
      splitSpans text cs ov (text.length + 1) = some spans ∧
      splitText text cs ov (text.length + 1) = some chunks ∧
      chunks = spans.map (fun sp => pySlice text sp.1 sp.2) ∧
      ∀ i : Nat, i < text.length →
        ∃ sp ∈ spans, sp.1 ≤ (i : Int) ∧ (i : Int) < sp.2 := by
  by_cases hlen : text.length ≤ cs
  · refine ⟨[(0, (text.length : Int))], [text], ?_, ?_, ?_, ?_⟩
    · unfold splitSpans
      rw [if_pos hlen]
    · unfold splitText
      rw [if_pos hlen]
    · simp [pySlice_full]
    · intro i hi
      refine ⟨(0, (text.length : Int)), List.mem_singleton_self _, ?_, ?_⟩
      · show (0 : Int) ≤ (i : Int)
        positivity
      · show (i : Int) < (text.length : Int)
        exact_mod_cast hi
  · have hsome := splitAux_isSome text cs ov h1 h2 (text.length + 1) 0 (by push_cast; omega)
    rw [splitAux_eq_spans] at hsome
    have hspans0 : (splitSpansAux text cs ov (text.length + 1) 0).isSome := by
      cases ho : splitSpansAux text cs ov (text.length + 1) 0
      · rw [ho] at hsome
        simp at hsome
      · rfl
    obtain ⟨spans, hspans⟩ := Option.isSome_iff_exists.mp hspans0
    refine ⟨spans, spans.map (fun sp => pySlice text sp.1 sp.2), ?_, ?_, rfl, ?_⟩
    · unfold splitSpans
      rw [if_neg hlen]
      exact hspans
    · unfold splitText
      rw [if_neg hlen, splitAux_eq_spans, hspans]
      rfl
    · intro i hi
      exact splitSpansAux_covers text cs ov h1 h2 (text.length + 1) 0 spans
        le_rfl hspans i (by positivity) (by exact_mod_cast hi)

/-- Witness for C6 (amended) at the spec's worked example. -/
theorem c6_witness :
    2 < 10 ∧ 2 < 10 / 2 + 2 ∧
    ∃ spans chunks,
      splitSpans "1234567890ABCDEFGHIJ".toList 10 2
        ("1234567890ABCDEFGHIJ".toList.length + 1) = some spans ∧
      splitText "1234567890ABCDEFGHIJ".toList 10 2
        ("1234567890ABCDEFGHIJ".toList.length + 1) = some chunks ∧
      chunks = spans.map (fun sp => pySlice "1234567890ABCDEFGHIJ".toList sp.1 sp.2) ∧
      ∀ i : Nat, i < "1234567890ABCDEFGHIJ".toList.length →
        ∃ sp ∈ spans, sp.1 ≤ (i : Int) ∧ (i : Int) < sp.2 :=
  ⟨by decide, by decide,
    c6_coverage "1234567890ABCDEFGHIJ".toList 10 2 (by decide) (by decide)⟩

/-! ### Extraction pipeline lemmas (C2) -/

/-- A successful segmentation emits at least one chunk. -/
theorem splitText_ne_nil (text : List Char) (cs ov fuel : Nat)
    (chunks : List (List Char)) (h : splitText text cs ov fuel = some chunks) :
    chunks ≠ [] := by
  unfold splitText at h
  by_cases hlen : text.length ≤ cs
  · rw [if_pos hlen] at h
    obtain rfl := Option.some.inj h
    simp
  · rw [if_neg hlen] at h
    have hs : (0 : Int) < (text.length : Int) := by
      have : cs < text.length := Nat.lt_of_not_le hlen
      omega
    cases fuel with
    | zero =>
      unfold splitAux at h
      rw [if_pos hs] at h
      cases hstep : splitStep text cs ov 0 <;> rw [hstep] at h
      · obtain rfl := Option.some.inj h
        simp
      · exact absurd h (by simp)
    | succ f =>
      unfold splitAux at h
      rw [if_pos hs] at h
      cases hstep : splitStep text cs ov 0 <;> rw [hstep] at h
      · obtain rfl := Option.some.inj h
        simp
      · obtain ⟨r, _, hr⟩ := Option.map_eq_some'.mp h
        rw [← hr]
        simp

/-- A model response with neither a fenced block nor raw-parseable JSON
makes `_parse_model_response` fall back to the empty lists. -/
theorem parseModelResponse_failure (response source_text : String)
    (hfence : fencedJson response.toList = none)
    (hjson : jsonLoadsCL (pyStrip response.toList) = none) :
    parseModelResponse response source_text = some ([], []) := by
  unfold parseModelResponse
  simp only [hfence, hjson]

/-- C2 (amended, chunk level): a successful generation call whose
response fails structured parsing yields a chunk result with zero
entities, zero relations — and `success = True`. -/
theorem extractFromChunk_parse_failure (env : XEnv) (idx : Nat)
    (chunk : String) (schema : Schema)
    (hgen : (env.generate idx).success = true)
    (hfence : fencedJson (env.generate idx).content.toList = none)
    (hjson : jsonLoadsCL (pyStrip (env.generate idx).content.toList) = none) :
    extractFromChunk env idx chunk schema =
      some { entities := [], relations := [], source_text := chunk,
             success := true } := by
  unfold extractFromChunk
  rw [if_pos hgen, parseModelResponse_failure _ _ hfence hjson]
  rfl

/-- With every generation call succeeding but unparseable, the per-chunk
loop accumulates nothing yet counts every chunk as a success. -/
theorem chunkLoop_all_parse_failure (env : XEnv) (schema : Schema)
    (hall : ∀ i, (env.generate i).success = true ∧
      fencedJson (env.generate i).content.toList = none ∧
      jsonLoadsCL (pyStrip (env.generate i).content.toList) = none) :
    ∀ l : List (Nat × String), chunkLoop env schema l = some ([], [], l.length) := by
  intro l
  induction l with
  | nil => rfl
  | cons p rest ih =>
    obtain ⟨i, chunk⟩ := p
    unfold chunkLoop
    rw [extractFromChunk_parse_failure env i chunk schema (hall i).1 (hall i).2.1
      (hall i).2.2, ih]
    rfl

/-- C2 (amended): when a chunk's generation call succeeds but its
response cannot be parsed as structured data, the chunk contributes zero
entities and zero relations but **is counted as a successful chunk** —
the per-chunk success count in the `ExtractionResult` metadata counts
exactly the chunks whose generation call succeeded, parseable or not.
(Stated for a run in which every chunk is of this kind.) -/
theorem c2_parse_failure_counts_success (env : XEnv) (schema : Schema)
    (hschema : env.schema = some schema)
    (hall : ∀ i, (env.generate i).success = true ∧
      fencedJson (env.generate i).content.toList = none ∧
      jsonLoadsCL (pyStrip (env.generate i).content.toList) = none) :
    (∀ idx chunk, extractFromChunk env idx chunk schema =
        some { entities := [], relations := [], source_text := chunk,
               success := true }) ∧
    ∀ (cfg : ExtractorCfg) (fuel : Nat) (text : List Char)
      (chunks : List (List Char)),
      splitText text cfg.chunk_size cfg.chunk_overlap fuel = some chunks →
      extractFromText cfg env fuel text =
        some { entities := [], relations := [], source_text := text.asString,
               success := true,
               metadata := some { chunks_count := chunks.length,
                                  success_chunks := chunks.length,
                                  entities_before_merge := 0,
                                  relations_before_merge := 0 } } := by
  constructor
  · intro idx chunk
    exact extractFromChunk_parse_failure env idx chunk schema (hall idx).1
      (hall idx).2.1 (hall idx).2.2
  · intro cfg fuel text chunks hsplit
    have hne := splitText_ne_nil text cfg.chunk_size cfg.chunk_overlap fuel chunks hsplit
    have hpos : 0 < chunks.length := List.length_pos.mpr hne
    unfold extractFromText
    rw [hschema, hsplit]
    simp only [chunkLoop_all_parse_failure env schema hall, List.length_zip,
      List.length_range, List.length_map, min_self]
    rw [if_pos hpos]
    simp [mergeEntities, mergeRelations, hpos]

/-- C2: the claim states an unparseable (but successfully generated)
chunk is *counted as a failed chunk* and does not increment the success
count.  Counterexample: a single-chunk extraction whose response is
plain prose yields zero entities/relations but `success_chunks = 1`
(and an overall successful result). -/
theorem c2_counterexample :
    extractFromText {}
      { schema := some { rendering := "schema" },
        generate := fun _ => { content := "这不是有效的JSON格式", success := true } }
      1 "张三是工程师。".toList =
    some { entities := [], relations := [], source_text := "张三是工程师。",
           success := true,
           metadata := some { chunks_count := 1, success_chunks := 1,
                              entities_before_merge := 0,
                              relations_before_merge := 0 } } := by
  rfl

/-- Witness for C2 (amended) at the counterexample environment. -/
theorem c2_witness :
    (∀ idx chunk,
      extractFromChunk
        { schema := some { rendering := "schema" },
          generate := fun _ => { content := "这不是有效的JSON格式", success := true } }
        idx chunk { rendering := "schema" } =
      some { entities := [], relations := [], source_text := chunk,
             success := true }) ∧
    ∀ (cfg : ExtractorCfg) (fuel : Nat) (text : List Char)
      (chunks : List (List Char)),
      splitText text cfg.chunk_size cfg.chunk_overlap fuel = some chunks →
      extractFromText cfg
        { schema := some { rendering := "schema" },
          generate := fun _ => { content := "这不是有效的JSON格式", success := true } }
        fuel text =
        some { entities := [], relations := [], source_text := text.asString,
               success := true,
               metadata := some { chunks_count := chunks.length,
                                  success_chunks := chunks.length,
                                  entities_before_merge := 0,
                                  relations_before_merge := 0 } } :=
  c2_parse_failure_counts_success _ _ rfl (fun _ => ⟨rfl, rfl, rfl⟩)

/-! ### QA orchestrator lemmas -/

/-- Unfolding `>>=` of the QA monad at a state. -/
theorem QM.bind_apply {α β : Type} (x : QM α) (f : α → QM β) (s : Nat) :
    (x >>= f) s =
      match x s with
      | (.ok a, s1) => f a s1
      | (.error e, s1) => (.error e, s1) := rfl

/-- Unfolding `pure` of the QA monad at a state. -/
theorem QM.pure_apply {α : Type} (a : α) (s : Nat) :
    (pure a : QM α) s = (.ok a, s) := rfl

/-- The terminal apology answer of `_global_first_search`. -/
def apologyAnswer : Answer :=
  { response := "抱歉，无法找到相关信息来回答您的问题。"
    sources := []
    confidence := mkRat 1 10
    method := "fallback" }

/-- `_search_global_graph` raises nothing and consumes no generation
call. -/
theorem searchGlobalGraph_apply (env : QEnv) (q : String) (s : Nat) :
    searchGlobalGraph env q s =
      (.ok (if ¬ env.hasNeo4j then []
            else (extractKeywords q).foldl (fun acc kw => acc ++ env.query kw) []), s) := by
  unfold searchGlobalGraph pyTry
  by_cases h : env.hasNeo4j <;> simp [h]

/-- A `try/except` whose handler always succeeds always succeeds. -/
theorem pyTry_isOk {α : Type} (b h : QM α)
    (hh : ∀ s, ∃ a s', h s = (.ok a, s')) (s : Nat) :
    ∃ a s', pyTry b h s = (.ok a, s') := by
  unfold pyTry
  rcases hb : b s with ⟨r, s1⟩
  cases r with
  | ok a => exact ⟨a, s1, rfl⟩
  | error e => exact hh s1

/-- `_global_first_search` never raises. -/
theorem globalFirstSearch_isOk (env : QEnv) (q : String) (s : Nat) :
    ∃ a s', globalFirstSearch env q s = (.ok a, s') := by
  unfold globalFirstSearch
  exact pyTry_isOk _ _ (fun s0 => ⟨apologyAnswer, s0, rfl⟩) s

/-- When the generation collaborator fails on the call it is given,
`_global_first_search` returns the terminal apology answer, consuming
exactly one generation call. -/
theorem globalFirstSearch_fail (env : QEnv) (q : String) (s : Nat)
    (hfail : (env.generate s).success = false) :
    globalFirstSearch env q s = (.ok apologyAnswer, s + 1) := by
  unfold globalFirstSearch pyTry
  simp only [QM.bind_apply, searchGlobalGraph_apply, genCall, hfail,
    Bool.false_eq_true, if_false, pyThrow]
  rfl

/-- C8: with an empty ranked-community list, `COMMUNITY_FIRST` returns
exactly the result of invoking `GLOBAL_FIRST` directly on the same
question, in the same collaborator environment and call state. -/
theorem c8_empty_communities_equals_global (env : QEnv) (question : String)
    (s : Nat) :
    communityFirstSearch env question [] s = globalFirstSearch env question s := by
  obtain ⟨a, s', hga⟩ := globalFirstSearch_isOk env question s
  show pyTry (globalFirstSearch env question) (globalFirstSearch env question) s =
    globalFirstSearch env question s
  unfold pyTry
  rw [hga]

/-- C7: when every generation call fails (so the community path and the
global-search generation call both fail), the orchestrator entered
through `COMMUNITY_FIRST` returns the terminal answer with confidence
exactly 0.1, an empty sources list and a non-empty apology text — as an
`ok` value, never as a raised exception. -/
theorem c7_terminal_fallback (env : QEnv) (question : String)
    (rcs : List PyDict) (s : Nat)
    (hfail : ∀ i, (env.generate i).success = false) :
    apologyAnswer.response ≠ "" ∧ apologyAnswer.sources = [] ∧
    apologyAnswer.confidence = mkRat 1 10 ∧
    ∃ s', communityFirstSearch env question rcs s = (.ok apologyAnswer, s') := by
  refine ⟨by decide, rfl, rfl, ?_⟩
  unfold communityFirstSearch pyTry
  by_cases hempty : rcs.isEmpty
  · simp only [hempty, if_true]
    exact ⟨s + 1, by rw [globalFirstSearch_fail env question s (hfail s)]⟩
  · simp only [hempty, Bool.false_eq_true, if_false]
    rcases hb : buildCommunityContexts env (rcs.take 3) s with ⟨r0, s0⟩
    simp only [QM.bind_apply, hb]
    cases r0 with
    | error e =>
      exact ⟨s0 + 1, by simp [globalFirstSearch_fail env question s0 (hfail s0)]⟩
    | ok ctxs =>
      cases hp : buildCommunityAnswerPrompt question ctxs with
      | error e =>
        exact ⟨s0 + 1,
          by simp [liftE, hp, globalFirstSearch_fail env question s0 (hfail s0)]⟩
      | ok prompt =>
        exact ⟨s0 + 2,
          by simp [liftE, hp, genCall, hfail s0, pyThrow,
            globalFirstSearch_fail env question (s0 + 1) (hfail (s0 + 1))]⟩

/-- Witness for C7 at a concrete always-failing environment. -/
theorem c7_witness :
    (∀ i, (({ generate := fun _ => { success := false },
              hasNeo4j := true,
              allSummaries := [],
              query := fun _ => [],
              summaryOf := fun _ => { success := true },
              subgraphOf := fun _ => { success := true } } : QEnv).generate i).success
        = false) ∧
    (apologyAnswer.response ≠ "" ∧ apologyAnswer.sources = [] ∧
     apologyAnswer.confidence = mkRat 1 10 ∧
     ∃ s', communityFirstSearch
        { generate := fun _ => { success := false },
          hasNeo4j := true,
          allSummaries := [],
          query := fun _ => [],
          summaryOf := fun _ => { success := true },
          subgraphOf := fun _ => { success := true } }
        "张三是谁？" [[("community_id", JVal.num 1)]] 0 = (.ok apologyAnswer, s')) :=
  ⟨fun _ => rfl,
    c7_terminal_fallback _ "张三是谁？" [[("community_id", JVal.num 1)]] 0
      (fun _ => rfl)⟩

/-- C4 (amended): in the HYBRID strategy with a non-empty ranked list,
when the synthesis call fails the orchestrator returns the community
sub-result only when its confidence is **strictly** higher than the
global sub-result's; otherwise — including on ties, even when a
community sub-result was computed — it returns the global sub-result. -/
theorem c4_hybrid_synthesis_fallback (env : QEnv) (question : String)
    (rcs : List PyDict) (s s1 s2 : Nat) (ca ga : Answer)
    (hne : rcs ≠ [])
    (hc : communityFirstSearch env question rcs s = (.ok ca, s1))
    (hg : globalFirstSearch env question s1 = (.ok ga, s2))
    (hsyn : (env.generate s2).success = false) :
    hybridSearch env question rcs s =
      (.ok (if ga.confidence < ca.confidence then ca else ga), s2 + 1) := by
  have hempty : rcs.isEmpty = false := by
    cases rcs with
    | nil => exact absurd rfl hne
    | cons a l => rfl
  unfold hybridSearch pyTry
  simp only [hempty, Bool.false_eq_true, if_false, QM.bind_apply, hc,
    QM.pure_apply, hg, genCall, hsyn, pyThrow]
  by_cases hconf : ga.confidence < ca.confidence <;> simp [hconf]

/-- C4: the claim says a confidence tie resolves to the community
sub-result when one was computed.  Counterexample: a run in which the
community path internally degraded to a global search (response "A",
confidence 0.6), the global sub-search returned "B" (confidence 0.6),
and the synthesis call failed — the orchestrator returns the global
sub-result "B", not the computed community sub-result "A". -/
theorem c4_counterexample :
    communityFirstSearch c4Env "q" c4Rcs 0 = (.ok c4CommunityAnswer, 2) ∧
    globalFirstSearch c4Env "q" 2 = (.ok c4GlobalAnswer, 3) ∧
    (c4Env.generate 3).success = false ∧
    c4CommunityAnswer.confidence = c4GlobalAnswer.confidence ∧
    hybridSearch c4Env "q" c4Rcs 0 = (.ok c4GlobalAnswer, 4) ∧
    c4GlobalAnswer ≠ c4CommunityAnswer :=
  ⟨rfl, rfl, rfl, rfl, rfl, by decide⟩

/-- Witness for C4 (amended) at the counterexample run. -/
theorem c4_witness :
    c4Rcs ≠ [] ∧
    hybridSearch c4Env "q" c4Rcs 0 =
      (.ok (if c4GlobalAnswer.confidence < c4CommunityAnswer.confidence
            then c4CommunityAnswer else c4GlobalAnswer), 3 + 1) :=
  ⟨by simp [c4Rcs],
    c4_hybrid_synthesis_fallback c4Env "q" c4Rcs 0 2 3 c4CommunityAnswer
      c4GlobalAnswer (by simp [c4Rcs]) rfl rfl rfl⟩

/-- Python's stable descending sort by a numeric key yields a
non-increasing key sequence. -/
theorem pySortDesc_chain (key : PyDict → ℚ) (l : List PyDict) :
    List.Chain' (fun a b => key b ≤ key a) (pySortDesc key l) := by
  haveI ht : IsTotal PyDict (fun a b => key b ≤ key a) :=
    ⟨fun a b => le_total (key b) (key a)⟩
  haveI htr : IsTrans PyDict (fun a b => key b ≤ key a) :=
    ⟨fun a b c hab hbc => le_trans hbc hab⟩
  exact (List.sorted_insertionSort _ l).chain'

/-- The keyword-matching fallback returns a non-increasing score
sequence. -/
theorem keywordCommunityMatching_chain (q : String) (su : List SummaryRec) :
    List.Chain' (fun a b => kScore b ≤ kScore a) (keywordCommunityMatching q su) := by
  unfold keywordCommunityMatching
  exact pySortDesc_chain kScore _

/-- C9: every ranked community list produced by the Community Relevance
Resolver — on the LLM primary path, the keyword fallback path, or any of
its swallow-the-error paths — has monotonically non-increasing relevance
scores. -/
theorem c9_relevance_monotone (env : QEnv) (question : String) (s : Nat)
    (items : List PyDict) (s' : Nat)
    (h : findRelevantCommunities env question s = (.ok items, s')) :
    List.Chain' (fun a b => kScore b ≤ kScore a) items := by
  have hsum : getAllCommunitySummaries env s =
      (.ok (if ¬ env.hasNeo4j then [] else env.allSummaries), s) := by
    unfold getAllCommunitySummaries pyTry
    by_cases hn : env.hasNeo4j <;> simp [hn]
  unfold findRelevantCommunities pyTry at h
  rw [QM.bind_apply, hsum] at h
  by_cases hXe : (if ¬ env.hasNeo4j then [] else env.allSummaries).isEmpty
  · simp only [hXe, if_true, QM.pure_apply] at h
    injection h with h1 h2
    injection h1 with h3
    rw [← h3]
    exact List.chain'_nil
  · simp only [hXe, Bool.false_eq_true, if_false, QM.bind_apply, genCall] at h
    by_cases hgs : (env.generate s).success
    · simp only [hgs, if_true] at h
      cases hj : jsonLoads (env.generate s).response with
      | none =>
        simp only [hj, QM.pure_apply] at h
        injection h with h1 h2
        injection h1 with h3
        rw [← h3]
        exact keywordCommunityMatching_chain question _
      | some data =>
        simp only [hj] at h
        cases hitems : jvalItems data with
        | error e =>
          simp only [liftE, hitems, QM.pure_apply] at h
          injection h with h1 h2
          injection h1 with h3
          rw [← h3]
          exact List.chain'_nil
        | ok items0 =>
          cases hsc : items0.mapM (fun it => (itemScore it).map (fun q => (it, q))) with
          | error e =>
            simp only [liftE, hitems, hsc, QM.bind_apply, QM.pure_apply] at h
            injection h with h1 h2
            injection h1 with h3
            rw [← h3]
            exact List.chain'_nil
          | ok scored =>
            simp only [liftE, hitems, hsc, QM.bind_apply, QM.pure_apply] at h
            injection h with h1 h2
            injection h1 with h3
            rw [← h3]
            exact pySortDesc_chain kScore _
    · simp only [hgs, Bool.false_eq_true, if_false, QM.pure_apply] at h
      injection h with h1 h2
      injection h1 with h3
      rw [← h3]
      exact keywordCommunityMatching_chain question _

set_option maxRecDepth 8000 in
/-- Witness for C9 at a concrete LLM-path run: the returned ranking is
the 0.9 community before the 0.5 community, scores non-increasing. -/
theorem c9_witness :
    findRelevantCommunities c9Env "问题" 0 =
      (.ok [[("community_id", JVal.num 1), ("relevance_score", JVal.num (mkRat 9 10))],
            [("community_id", JVal.num 2), ("relevance_score", JVal.num (mkRat 1 2))]],
        1) ∧
    List.Chain' (fun a b => kScore b ≤ kScore a)
      [[("community_id", JVal.num 1), ("relevance_score", JVal.num (mkRat 9 10))],
       [("community_id", JVal.num 2), ("relevance_score", JVal.num (mkRat 1 2))]] :=
  ⟨rfl, c9_relevance_monotone c9Env "问题" 0 _ 1 rfl⟩

/-- C10: in COMMUNITY_FIRST, a top-3 community whose summary fetch fails
but whose subgraph fetch succeeds has its subgraph attached to the last
previously appended community context — a context belonging to a
*different* community; and when no context has been appended yet, the
`community_contexts[-1]` indexing raises `IndexError` internally and the
whole strategy falls back to GLOBAL_FIRST. -/
theorem c10_subgraph_misattach (env : QEnv) (question : String)
    (v1 v2 r1 r2 : JVal) (s : Nat)
    (h1s : (env.summaryOf v1).success = true)
    (h1g : (env.subgraphOf v1).success = false)
    (h2s : (env.summaryOf v2).success = false)
    (h2g : (env.subgraphOf v2).success = true)
    (hne : v1 ≠ v2) :
    v1 ≠ v2 ∧
    buildCommunityContexts env
        [[("community_id", v1), ("relevance_score", r1)],
         [("community_id", v2), ("relevance_score", r2)]] s =
      (.ok [{ community_id := v1, summary := (env.summaryOf v1).summary,
              relevance := r1,
              subgraph := some (env.subgraphOf v2) }], s) ∧
    ∀ rest : List PyDict,
      communityFirstSearch env question
          ([("community_id", v2), ("relevance_score", r2)] :: rest) s =
        globalFirstSearch env question s := by
  have hget1 : pyGet [("community_id", v1), ("relevance_score", r1)] "community_id" =
      some v1 := rfl
  have hgetd1 : pyGetD [("community_id", v1), ("relevance_score", r1)]
      "relevance_score" (.num 0) = r1 := rfl
  have hget2 : pyGet [("community_id", v2), ("relevance_score", r2)] "community_id" =
      some v2 := rfl
  have hstep1 : ctxStep env [] [("community_id", v1), ("relevance_score", r1)] s =
      (.ok [{ community_id := v1, summary := (env.summaryOf v1).summary,
              relevance := r1, subgraph := none }], s) := by
    unfold ctxStep
    simp only [hget1, hgetd1, QM.bind_apply, QM.pure_apply, h1s, h1g,
      Bool.false_eq_true, if_false, eq_self_iff_true, if_true, List.nil_append]
  have hstep2 : ∀ (acc : List Ctx) (s0 : Nat),
      ctxStep env acc [("community_id", v2), ("relevance_score", r2)] s0 =
        match setLastSubgraph (env.subgraphOf v2) acc with
        | some acc2 => (.ok acc2, s0)
        | none => (.error .indexError, s0) := by
    intro acc s0
    unfold ctxStep
    simp only [hget2, QM.bind_apply, QM.pure_apply, h2s, h2g,
      Bool.false_eq_true, if_false, eq_self_iff_true, if_true]
    cases hsl : setLastSubgraph (env.subgraphOf v2) acc <;>
      simp [hsl, pyThrow, QM.pure_apply]
  refine ⟨hne, ?_, ?_⟩
  · unfold buildCommunityContexts
    simp only [List.foldlM_cons, List.foldlM_nil, QM.bind_apply, QM.pure_apply,
      hstep1, hstep2]
    rfl
  · intro rest
    obtain ⟨a, s', hga⟩ := globalFirstSearch_isOk env question s
    unfold communityFirstSearch pyTry
    simp only [List.isEmpty_cons, Bool.false_eq_true, if_false]
    have htake : (([("community_id", v2), ("relevance_score", r2)] : PyDict) ::
        rest).take 3 =
        ([("community_id", v2), ("relevance_score", r2)] : PyDict) :: rest.take 2 := rfl
    rw [htake]
    have hfold : buildCommunityContexts env
        (([("community_id", v2), ("relevance_score", r2)] : PyDict) :: rest.take 2) s =
        ((.error .indexError : Except PyErr (List Ctx)), s) := by
      have hsl0 : setLastSubgraph (env.subgraphOf v2) ([] : List Ctx) = none := rfl
      unfold buildCommunityContexts
      simp only [List.foldlM_cons, QM.bind_apply, hstep2, hsl0]
    simp only [QM.bind_apply, hfold]

/-- Witness for C10: community 1 (summary ok, subgraph missing) followed
by community 2 (summary missing, subgraph ok) yields a single context
for community 1 carrying community 2's subgraph; community 2 alone makes
the whole strategy fall back to the global search. -/
theorem c10_witness :
    (c10Env.summaryOf (JVal.num 1)).success = true ∧
    JVal.num 1 ≠ JVal.num 2 ∧
    buildCommunityContexts c10Env
        [[("community_id", JVal.num 1), ("relevance_score", JVal.num (mkRat 9 10))],
         [("community_id", JVal.num 2), ("relevance_score", JVal.num (mkRat 1 2))]]
        0 =
      (.ok [{ community_id := JVal.num 1,
              summary := (c10Env.summaryOf (JVal.num 1)).summary,
              relevance := JVal.num (mkRat 9 10),
              subgraph := some (c10Env.subgraphOf (JVal.num 2)) }], 0) ∧
    ∀ rest : List PyDict,
      communityFirstSearch c10Env "q"
          ([("community_id", JVal.num 2),
            ("relevance_score", JVal.num (mkRat 1 2))] :: rest) 0 =
        globalFirstSearch c10Env "q" 0 := by
  have h := c10_subgraph_misattach c10Env "q" (JVal.num 1) (JVal.num 2)
    (JVal.num (mkRat 9 10)) (JVal.num (mkRat 1 2)) 0 rfl rfl rfl rfl
    (fun heq => absurd (JVal.num.inj heq) (by norm_num))
  exact ⟨rfl, h.1, h.2.1, h.2.2⟩

end GraghRag
